import Mathlib

/-!
Shallow embedding of the hardyplan storage/scheduling core.

Sources embedded here:
- `src/lib/types.ts` — the data model (TrainingSession, DaySchedule, WeekSchedule).
- the day-keyed KV layer (`convertToISODate`, `storeWeekSchedule`,
  `weekScheduleExists`, `getAllDaySchedules`, `getDayScheduleByISO`,
  `getDaySchedule`, `getTodaySchedule`, `shouldSkipScraping`).
- `src/app/api/scrape/route.ts` — the ingestion loop (`scrapePOST`).

Conventions of the embedding:
- The `DD.MM` partial-date string is embedded as a pair of numbers
  (`PartialDate`); the `date.split(".").map(Number)` step of the source is
  the inverse of this encoding and carries no other logic.
- The `YYYY-MM-DD` storage key string is embedded as the number
  `year*10000 + month*100 + day` (`ISODate.key`); for four-digit years and
  zero-padded months/days, numeric order of the encoding coincides with
  lexicographic order of the key string, which is what Redis sorts by.
- Redis state is an explicit structure of association lists (`KVState`);
  `redis.set` is `kvSet`, `redis.get` is `kvGet`, `redis.exists` is
  `kvGet ... |>.isSome`, `zadd` is `kvSet` on the member, and
  `zrange ... rev` sorts by score descending with reverse-lexicographic
  member tie-break (`zrangeRev`).
- Instants are epoch milliseconds (`Int`), as in `Date.now()`.
- Fallible reads are `Except String`; the source's `try/catch` blocks
  become a `match` on that value.
-/

namespace Hardyplan

/-- `TrainingSession` from `src/lib/types.ts`: one workout block, all fields
free-form strings. -/
structure TrainingSession where
  type : String
  exercises : List String
  trainingMethod : String
  mainPartDuration : String
deriving DecidableEq, Repr

/-- A `DD.MM` partial date (day and month, no year), the `date` field of a
day in the upstream data. -/
structure PartialDate where
  day : Nat
  month : Nat
deriving DecidableEq, Repr

/-- `DaySchedule` from `src/lib/types.ts`, as produced by the parser (the
optional storage-side fields `isoDate`/`sourceUrl`/`scrapedAt` are absent on
input and live in `StoredDay`). -/
structure DaySchedule where
  date : PartialDate
  dayName : String
  trainingSessions : List TrainingSession
deriving DecidableEq, Repr

/-- `WeekSchedule` from `src/lib/types.ts`: one parsed blog post. -/
structure WeekSchedule where
  week : String
  sourceUrl : String
  scrapedAt : String
  days : List DaySchedule
deriving DecidableEq, Repr

/-- The reference instant's calendar fields used by `convertToISODate`:
`now.getFullYear()` and `now.getMonth() + 1` (we carry the month 1-based;
the source's `getMonth() === 0` test is `month = 1` here, and
`getMonth() === 11` is `month = 12`). -/
structure RefDate where
  year : Nat
  month : Nat
deriving DecidableEq, Repr

/-- A year-qualified calendar date, the content of a `YYYY-MM-DD` key. -/
structure ISODate where
  year : Nat
  month : Nat
  day : Nat
deriving DecidableEq, Repr

/-- Numeric encoding of the `YYYY-MM-DD` key string; numeric order agrees
with lexicographic string order for four-digit years. -/
def ISODate.key (d : ISODate) : Nat :=
  d.year * 10000 + d.month * 100 + d.day

/-- `convertToISODate` from the day-keyed KV layer: resolve the year of a
partial date from the reference instant. The source applies two sequential
`if`s: January reference with a December partial month subtracts a year;
December reference with a January partial month adds a year. The padding and
string formatting of the source are the `ISODate.key` encoding. -/
def convertToISODate (p : PartialDate) (ref : RefDate) : ISODate :=
  let y1 := if ref.month = 1 ∧ p.month = 12 then ref.year - 1 else ref.year
  let y2 := if ref.month = 12 ∧ p.month = 1 then y1 + 1 else y1
  ⟨y2, p.month, p.day⟩

/-- Outcome view of `convertToISODate`: the source function has no throw and
no validation path, so every input maps to `Except.ok`. This wrapper exists
to state claims about its (absent) failure behaviour. -/
def convertToISODateOutcome (p : PartialDate) (ref : RefDate) :
    Except String ISODate :=
  Except.ok (convertToISODate p ref)

/-- Number of days in a month of the proleptic Gregorian calendar (not from
the source: the calendar fact used to state what a real date is). -/
def daysInMonth (year month : Nat) : Nat :=
  if month = 2 then
    if (year % 4 = 0 ∧ year % 100 ≠ 0) ∨ year % 400 = 0 then 29 else 28
  else if month = 4 ∨ month = 6 ∨ month = 9 ∨ month = 11 then 30 else 31

/-- Whether a year/month/day triple denotes a real calendar date. -/
def isRealDate (year month day : Nat) : Bool :=
  decide (1 ≤ month ∧ month ≤ 12 ∧ 1 ≤ day ∧ day ≤ daysInMonth year month)

/-! ### Redis primitives as association lists -/

/-- `redis.set key value`: replace the value at an existing key, or append
the key. Keys stay unique if they were unique. -/
def kvSet {κ α : Type} [DecidableEq κ] (k : κ) (v : α) :
    List (κ × α) → List (κ × α)
  | [] => [(k, v)]
  | (k0, v0) :: rest =>
      if k0 = k then (k, v) :: rest else (k0, v0) :: kvSet k v rest

/-- `redis.get key`: the value stored at a key, if present. -/
def kvGet {κ α : Type} [DecidableEq κ] (k : κ) : List (κ × α) → Option α
  | [] => none
  | (k0, v0) :: rest => if k0 = k then some v0 else kvGet k rest

/-- A day record as written by `storeWeekSchedule` under
`schedules:day:{isoDate}`: the parsed day spread together with the resolved
`isoDate` and the submission's `sourceUrl`/`scrapedAt`. -/
structure StoredDay where
  date : PartialDate
  dayName : String
  trainingSessions : List TrainingSession
  isoDate : ISODate
  sourceUrl : String
  scrapedAt : String
deriving DecidableEq, Repr

/-- The week metadata record written under `schedules:week:{week}`. -/
structure WeekMeta where
  week : String
  sourceUrl : String
  scrapedAt : String
  dayCount : Nat
deriving DecidableEq, Repr

/-- The Redis key space of the day-keyed KV layer:
`schedules:day:{date}` records, the `schedules:days:list` sorted set
(member = encoded date key, score = storage timestamp), the
`schedules:week:{week}` metadata records, and `schedules:latest_update`. -/
structure KVState where
  dayStore : List (Nat × StoredDay)
  daysList : List (Nat × Int)
  weekStore : List (String × WeekMeta)
  latestUpdate : Option Int
deriving DecidableEq, Repr

/-- The empty database. -/
def emptyKV : KVState := ⟨[], [], [], none⟩

/-! ### Schedule store (day-keyed KV layer) -/

/-- The day record `storeWeekSchedule` writes for day `d` of submission
`s` under reference instant `ref`. -/
def mkStoredDay (ref : RefDate) (s : WeekSchedule) (d : DaySchedule) :
    StoredDay :=
  ⟨d.date, d.dayName, d.trainingSessions, convertToISODate d.date ref,
    s.sourceUrl, s.scrapedAt⟩

/-- One iteration of the day loop of `storeWeekSchedule`: set the
`schedules:day:{isoDate}` record and `zadd` the date into
`schedules:days:list` with the call's timestamp `now` as score. -/
def storeDay (ref : RefDate) (s : WeekSchedule) (now : Int) (d : DaySchedule)
    (st : KVState) : KVState :=
  let iso := convertToISODate d.date ref
  let st1 := { st with dayStore := kvSet iso.key (mkStoredDay ref s d) st.dayStore }
  { st1 with daysList := kvSet iso.key now st1.daysList }

/-- `storeWeekSchedule`: store each day individually, then the week
metadata record and the `schedules:latest_update` timestamp; return the
number of days stored (`storedCount`, incremented once per day). `now` is
the single `Date.now()` taken at the start of the call. -/
def storeWeekSchedule (ref : RefDate) (now : Int) (s : WeekSchedule)
    (st : KVState) : KVState × Nat :=
  let st1 := s.days.foldl (fun acc d => storeDay ref s now d acc) st
  let st2 := { st1 with
    weekStore := kvSet s.week ⟨s.week, s.sourceUrl, s.scrapedAt, s.days.length⟩
      st1.weekStore }
  ({ st2 with latestUpdate := some now }, s.days.length)

/-- `weekScheduleExists`: `redis.exists` on `schedules:week:{week}`. -/
def weekScheduleExists (week : String) (st : KVState) : Bool :=
  (kvGet week st.weekStore).isSome

/-- `getDayScheduleByISO`: `redis.get` on `schedules:day:{isoDate}`. -/
def getDayScheduleByISO (k : Nat) (st : KVState) : Option StoredDay :=
  kvGet k st.dayStore

/-- `getDaySchedule`: convert the `DD.MM` partial date with the current
reference instant, then look the key up. -/
def getDaySchedule (p : PartialDate) (ref : RefDate) (st : KVState) :
    Option StoredDay :=
  getDayScheduleByISO (convertToISODate p ref).key st

/-! ### Ordered listing (`zrange rev`) -/

/-- The order in which `zrange schedules:days:list 0 -1 rev` emits entries:
descending score, and for equal scores descending member (Redis lists equal
scores in lexicographic member order, reversed by `rev`; member encoding
order agrees with the key strings' lexicographic order). -/
def zrevOrder (p q : Nat × Int) : Prop :=
  q.2 < p.2 ∨ (p.2 = q.2 ∧ q.1 ≤ p.1)

instance : DecidableRel zrevOrder := fun p q => by
  unfold zrevOrder; infer_instance

instance : IsTotal (Nat × Int) zrevOrder := by
  constructor
  intro a b
  rcases lt_trichotomy a.2 b.2 with h | h | h
  · exact Or.inr (Or.inl h)
  · rcases le_total a.1 b.1 with h1 | h1
    · exact Or.inr (Or.inr ⟨h.symm, h1⟩)
    · exact Or.inl (Or.inr ⟨h, h1⟩)
  · exact Or.inl (Or.inl h)

instance : IsTrans (Nat × Int) zrevOrder := by
  constructor
  rintro a b c (hab | ⟨hab, hab1⟩) (hbc | ⟨hbc, hbc1⟩)
  · exact Or.inl (hbc.trans hab)
  · exact Or.inl (hbc ▸ hab)
  · exact Or.inl (hab ▸ hbc)
  · exact Or.inr ⟨hab.trans hbc, hbc1.trans hab1⟩

/-- The sorted-set listing, newest first. -/
def zrangeRev (l : List (Nat × Int)) : List (Nat × Int) :=
  List.insertionSort zrevOrder l

/-- `getAllDaySchedules`: list the sorted set newest first, fetch each day
record, drop the missing ones. -/
def getAllDaySchedules (st : KVState) : List StoredDay :=
  ((zrangeRev st.daysList).map Prod.fst).filterMap
    (fun k => getDayScheduleByISO k st)

/-! ### Calendar arithmetic of `Date` (UTC)

`new Date().toISOString().split("T")[0]` yields the proleptic-Gregorian UTC
calendar date of the instant; `new Date("YYYY-MM-DD")` yields the UTC
midnight of that date. Both directions are the standard civil-from-days /
days-from-civil algorithms, embedded here with floor division. -/

def msPerDay : Int := 86400000

/-- Epoch day count of a civil date (UTC midnight of `y-m-d` is
`daysFromCivil y m d * msPerDay`). -/
def daysFromCivil (y m d : Nat) : Int :=
  let yAdj : Int := (y : Int) - (if m ≤ 2 then 1 else 0)
  let era : Int := Int.fdiv yAdj 400
  let yoe : Int := yAdj - era * 400
  let mp : Int := if 2 < m then (m : Int) - 3 else (m : Int) + 9
  let doy : Int := Int.fdiv (153 * mp + 2) 5 + (d : Int) - 1
  let doe : Int := yoe * 365 + Int.fdiv yoe 4 - Int.fdiv yoe 100 + doy
  era * 146097 + doe - 719468

/-- Civil date of an epoch day count. -/
def civilFromDays (z : Int) : ISODate :=
  let z1 := z + 719468
  let era := Int.fdiv z1 146097
  let doe := z1 - era * 146097
  let yoe := Int.fdiv (doe - Int.fdiv doe 1460 + Int.fdiv doe 36524
    - Int.fdiv doe 146096) 365
  let y := yoe + era * 400
  let doy := doe - (365 * yoe + Int.fdiv yoe 4 - Int.fdiv yoe 100)
  let mp := Int.fdiv (5 * doy + 2) 153
  let d := doy - Int.fdiv (153 * mp + 2) 5 + 1
  let m := if mp < 10 then mp + 3 else mp - 9
  ⟨(y + (if m ≤ 2 then 1 else 0)).toNat, m.toNat, d.toNat⟩

/-- The key `getTodaySchedule` computes:
`new Date().toISOString().split("T")[0]` — the UTC calendar date of the
instant. -/
def jsUTCDateKey (nowMs : Int) : Nat :=
  (civilFromDays (Int.fdiv nowMs msPerDay)).key

/-- The local calendar date of an instant in a zone `offsetMin` minutes
east of UTC (not computed anywhere in this code path; stated for
comparison). -/
def jsLocalDateKey (nowMs offsetMin : Int) : Nat :=
  (civilFromDays (Int.fdiv (nowMs + offsetMin * 60000) msPerDay)).key

/-- `getTodaySchedule`: look up today's record under the UTC date key. -/
def getTodaySchedule (nowMs : Int) (st : KVState) : Option StoredDay :=
  getDayScheduleByISO (jsUTCDateKey nowMs) st

/-! ### Freshness evaluator (`shouldSkipScraping`) -/

/-- The result shape of `shouldSkipScraping`. -/
structure SkipResult where
  shouldSkip : Bool
  reason : String
  daysAhead : Int
deriving DecidableEq, Repr

/-- `Math.ceil(a / b)` on exact integer operands, `b > 0`. -/
def jsCeilDiv (a b : Int) : Int := -Int.fdiv (-a) b

/-- The `maxDate` loop: start from today's (local) midnight and take the
largest stored date instant (`if (date > maxDate) maxDate = date`). Each
member of `schedules:days:list` parses via `new Date(dateStr)` to the UTC
midnight of the stored date; `dates` carries those instants. -/
def maxStoredMs (todayMs : Int) (dates : List Int) : Int :=
  dates.foldl (fun acc d => if acc < d then d else acc) todayMs

/-- `daysAhead = Math.ceil((maxDate - today) / (1000*60*60*24))`. -/
def daysAheadOf (todayMs : Int) (dates : List Int) : Int :=
  jsCeilDiv (maxStoredMs todayMs dates - todayMs) msPerDay

/-- `daysSinceUpdate`: floor of the elapsed days since
`schedules:latest_update`, or the sentinel `999` when the stored value is
absent (or `0`, which is falsy in the source's ternary). -/
def daysSinceUpdateOf (lastUpdate : Option Int) (nowMs : Int) : Int :=
  match lastUpdate with
  | none => 999
  | some t => if t = 0 then 999 else Int.fdiv (nowMs - t) msPerDay

/-- The `try` body of `shouldSkipScraping`, on a successfully read store
view: `dates` are the parsed members of `schedules:days:list`,
`lastUpdate` the stored update timestamp, `todayMs` the local midnight of
today and `nowMs` the current instant. -/
def shouldSkipScrapingCore (dates : List Int) (lastUpdate : Option Int)
    (todayMs nowMs : Int) : SkipResult :=
  if dates = [] then
    ⟨false, "No schedules in database", 0⟩
  else
    let daysAhead := daysAheadOf todayMs dates
    let dsu := daysSinceUpdateOf lastUpdate nowMs
    if 14 ≤ daysAhead ∧ dsu < 5 then
      ⟨true, s!"Have {daysAhead} days of schedules, last updated {dsu} days ago",
        daysAhead⟩
    else
      ⟨false, s!"Only {daysAhead} days ahead, last updated {dsu} days ago",
        daysAhead⟩

/-- `shouldSkipScraping` with its `catch`: a failed storage read yields
the do-not-skip default. -/
def shouldSkipScraping (read : Except String (List Int × Option Int))
    (todayMs nowMs : Int) : SkipResult :=
  match read with
  | Except.error _ => ⟨false, "Error checking schedules", 0⟩
  | Except.ok (dates, lastUpdate) =>
      shouldSkipScrapingCore dates lastUpdate todayMs nowMs

/-! ### Ingestion pipeline (`POST /api/scrape`) -/

/-- One candidate document: its URL together with the outcome of the
black-box scrape-and-parse collaborator (`parseScheduleWithLLM`) on it. -/
structure Post where
  url : String
  parsed : Except String WeekSchedule
deriving Repr

/-- `parseAllSchedules`: keep the successfully parsed schedules, in order;
failed documents are skipped (their error messages are collected into a
local `errors` array that the function logs but does not return). -/
def parseAllSchedules (posts : List Post) : List WeekSchedule :=
  posts.filterMap (fun p => p.parsed.toOption)

/-- The error messages `parseAllSchedules` accumulates locally (and drops). -/
def parseAllSchedulesErrors (posts : List Post) : List String :=
  posts.filterMap (fun p =>
    match p.parsed with
    | Except.error e =>
        let u := p.url
        some s!"Failed to parse {u}: {e}"
    | Except.ok _ => none)

/-- The accumulator of the route's storage loop (step 4 of the route). -/
structure ProcessOutcome where
  state : KVState
  stored : List String
  skipped : List String
  errors : List String
  totalDaysStored : Nat
deriving Repr

/-- One iteration of the route's storage loop: skip an existing week,
otherwise store it and record it as stored (or as an error when zero days
were stored). -/
def processOne (ref : RefDate) (now : Int) (acc : ProcessOutcome)
    (s : WeekSchedule) : ProcessOutcome :=
  if weekScheduleExists s.week acc.state then
    { acc with skipped := acc.skipped ++ [s.week] }
  else
    let r := storeWeekSchedule ref now s acc.state
    if 0 < r.2 then
      { acc with
        state := r.1
        stored := acc.stored ++ [s.week]
        totalDaysStored := acc.totalDaysStored + r.2 }
    else
      let wk := s.week
      { acc with
        state := r.1
        errors := acc.errors ++ [s!"Failed to store schedule for week {wk}"] }

/-- The route's storage loop over all parsed schedules. -/
def processSchedules (ref : RefDate) (now : Int)
    (schedules : List WeekSchedule) (st : KVState) : ProcessOutcome :=
  schedules.foldl (processOne ref now) ⟨st, [], [], [], 0⟩

/-- The JSON report of `POST /api/scrape` (`ScrapingResult` of
`src/lib/types.ts`, without the timestamp string). -/
structure ScrapingResult where
  success : Bool
  schedulesProcessed : Nat
  errors : List String
  urls : List String
deriving DecidableEq, Repr

/-- An HTTP response of the scrape route: status, report, and the store
state after the run. -/
structure RouteResponse where
  status : Nat
  result : ScrapingResult
  state : KVState
deriving Repr

/-- `POST /api/scrape` after authorization: short-circuit on the freshness
evaluator's skip signal; report zero found documents with `success: false`
and the note in `errors` (HTTP 200); otherwise parse all documents and run
the storage loop, reporting `success` iff the loop pushed no errors,
`schedulesProcessed` as the number of stored weeks, and the attempted
URLs. -/
def scrapePOST (skip : SkipResult) (posts : List Post) (ref : RefDate)
    (now : Int) (st : KVState) : RouteResponse :=
  if skip.shouldSkip then
    ⟨200, ⟨true, 0, [], []⟩, st⟩
  else if posts.isEmpty then
    ⟨200, ⟨false, 0, ["No blog posts found"], []⟩, st⟩
  else
    let schedules := parseAllSchedules posts
    let o := processSchedules ref now schedules st
    ⟨200, ⟨o.errors.isEmpty, o.stored.length, o.errors, posts.map Post.url⟩,
      o.state⟩

/-! ### Basic lemmas about the Redis primitives -/

theorem kvGet_kvSet_self {κ α : Type} [DecidableEq κ] (k : κ) (v : α)
    (l : List (κ × α)) : kvGet k (kvSet k v l) = some v := by
  induction l with
  | nil => simp [kvSet, kvGet]
  | cons hd tl ih =>
      obtain ⟨k0, v0⟩ := hd
      by_cases hk : k0 = k
      · subst hk; simp [kvSet, kvGet]
      · simp [kvSet, kvGet, hk, ih]

theorem kvGet_kvSet_ne {κ α : Type} [DecidableEq κ] {k1 k : κ} (v : α)
    (l : List (κ × α)) (h : k1 ≠ k) : kvGet k (kvSet k1 v l) = kvGet k l := by
  induction l with
  | nil => simp [kvSet, kvGet, h]
  | cons hd tl ih =>
      obtain ⟨k0, v0⟩ := hd
      by_cases hk : k0 = k1
      · subst hk; simp [kvSet, kvGet, h]
      · by_cases hk2 : k0 = k
        · subst hk2; simp [kvSet, kvGet, hk]
        · simp [kvSet, kvGet, hk, hk2, ih]

theorem kvGet_isSome_kvSet {κ α : Type} [DecidableEq κ] (k1 k : κ) (v : α)
    (l : List (κ × α)) (h : (kvGet k l).isSome = true) :
    (kvGet k (kvSet k1 v l)).isSome = true := by
  by_cases hk : k1 = k
  · subst hk; rw [kvGet_kvSet_self]; rfl
  · rw [kvGet_kvSet_ne v l hk]; exact h

/-! ### Lemmas about `storeWeekSchedule` -/

/-- Abbreviated day loop of `storeWeekSchedule`. -/
def storeDays (ref : RefDate) (s : WeekSchedule) (now : Int)
    (days : List DaySchedule) (st : KVState) : KVState :=
  days.foldl (fun acc d => storeDay ref s now d acc) st

theorem storeWeekSchedule_fst (ref : RefDate) (now : Int) (s : WeekSchedule)
    (st : KVState) :
    (storeWeekSchedule ref now s st).1 =
      { storeDays ref s now s.days st with
        weekStore := kvSet s.week ⟨s.week, s.sourceUrl, s.scrapedAt, s.days.length⟩
          (storeDays ref s now s.days st).weekStore
        latestUpdate := some now } := rfl

theorem storeWeekSchedule_snd (ref : RefDate) (now : Int) (s : WeekSchedule)
    (st : KVState) : (storeWeekSchedule ref now s st).2 = s.days.length := rfl

theorem storeDays_weekStore (ref : RefDate) (s : WeekSchedule) (now : Int)
    (days : List DaySchedule) (st : KVState) :
    (storeDays ref s now days st).weekStore = st.weekStore := by
  induction days generalizing st with
  | nil => rfl
  | cons d tl ih =>
      rw [storeDays, List.foldl_cons, ← storeDays, ih]
      rfl

theorem storeDays_dayStore_mono (ref : RefDate) (s : WeekSchedule) (now : Int)
    (days : List DaySchedule) (st : KVState) (k : Nat)
    (h : (kvGet k st.dayStore).isSome = true) :
    (kvGet k (storeDays ref s now days st).dayStore).isSome = true := by
  induction days generalizing st with
  | nil => exact h
  | cons d tl ih =>
      rw [storeDays] at *
      simp only [List.foldl_cons]
      exact ih _ (kvGet_isSome_kvSet _ _ _ _ h)

theorem storeDays_present (ref : RefDate) (s : WeekSchedule) (now : Int)
    (days : List DaySchedule) (st : KVState) :
    ∀ d ∈ days,
      (kvGet (convertToISODate d.date ref).key
        (storeDays ref s now days st).dayStore).isSome = true := by
  induction days generalizing st with
  | nil => intro d hd; cases hd
  | cons d0 tl ih =>
      intro d hd
      rw [storeDays, List.foldl_cons]
      rcases List.mem_cons.mp hd with rfl | hmem
      · apply storeDays_dayStore_mono
        have hds : (storeDay ref s now d st).dayStore
            = kvSet (convertToISODate d.date ref).key (mkStoredDay ref s d)
              st.dayStore := rfl
        rw [hds, kvGet_kvSet_self]
        rfl
      · exact ih _ d hmem

theorem storeDays_get_notmem (ref : RefDate) (s : WeekSchedule) (now : Int)
    (days : List DaySchedule) (st : KVState) (k : Nat)
    (h : k ∉ days.map (fun d => (convertToISODate d.date ref).key)) :
    kvGet k (storeDays ref s now days st).dayStore = kvGet k st.dayStore := by
  induction days generalizing st with
  | nil => rfl
  | cons d0 tl ih =>
      simp only [List.map_cons, List.mem_cons, not_or] at h
      rw [storeDays, List.foldl_cons, ← storeDays, ih _ h.2, storeDay]
      exact kvGet_kvSet_ne _ _ (fun he => h.1 he.symm)

theorem storeDays_get_nodup (ref : RefDate) (s : WeekSchedule) (now : Int)
    (days : List DaySchedule) (st : KVState)
    (hnd : (days.map (fun d => (convertToISODate d.date ref).key)).Nodup) :
    ∀ d ∈ days,
      kvGet (convertToISODate d.date ref).key
        (storeDays ref s now days st).dayStore = some (mkStoredDay ref s d) := by
  induction days generalizing st with
  | nil => intro d hd; cases hd
  | cons d0 tl ih =>
      simp only [List.map_cons, List.nodup_cons] at hnd
      intro d hd
      rcases List.mem_cons.mp hd with rfl | hmem
      · rw [storeDays, List.foldl_cons, ← storeDays,
          storeDays_get_notmem ref s now tl _ _ hnd.1]
        have hds : (storeDay ref s now d st).dayStore
            = kvSet (convertToISODate d.date ref).key (mkStoredDay ref s d)
              st.dayStore := rfl
        rw [hds, kvGet_kvSet_self]
      · rw [storeDays, List.foldl_cons, ← storeDays]
        exact ih _ hnd.2 d hmem

theorem weekExists_storeWeekSchedule (w : String) (ref : RefDate) (now : Int)
    (s : WeekSchedule) (st : KVState) (h : weekScheduleExists w st = true) :
    weekScheduleExists w (storeWeekSchedule ref now s st).1 = true := by
  unfold weekScheduleExists at *
  rw [storeWeekSchedule_fst]
  by_cases hw : s.week = w
  · subst hw; simp [kvGet_kvSet_self]
  · simp only []
    rw [kvGet_kvSet_ne _ _ hw, storeDays_weekStore]
    exact h

theorem storeWeekSchedule_records (ref : RefDate) (now : Int)
    (s : WeekSchedule) (st : KVState) :
    weekScheduleExists s.week (storeWeekSchedule ref now s st).1 = true := by
  unfold weekScheduleExists
  rw [storeWeekSchedule_fst]
  simp [kvGet_kvSet_self]

/-! ### Lemmas about the route's storage loop -/

theorem processOne_of_exists (ref : RefDate) (now : Int) (acc : ProcessOutcome)
    (s : WeekSchedule) (h : weekScheduleExists s.week acc.state = true) :
    processOne ref now acc s = { acc with skipped := acc.skipped ++ [s.week] } := by
  unfold processOne
  rw [if_pos h]

theorem processOne_state_of_new (ref : RefDate) (now : Int)
    (acc : ProcessOutcome) (s : WeekSchedule)
    (h : weekScheduleExists s.week acc.state = false) :
    (processOne ref now acc s).state = (storeWeekSchedule ref now s acc.state).1 := by
  unfold processOne
  rw [if_neg (by simp [h])]
  by_cases hn : 0 < (storeWeekSchedule ref now s acc.state).2
  · simp only [hn, if_true]
  · simp only [hn, if_false]

theorem processOne_week_mono (ref : RefDate) (now : Int) (acc : ProcessOutcome)
    (s : WeekSchedule) (w : String)
    (h : weekScheduleExists w acc.state = true) :
    weekScheduleExists w (processOne ref now acc s).state = true := by
  by_cases he : weekScheduleExists s.week acc.state = true
  · rw [processOne_of_exists ref now acc s he]
    exact h
  · rw [processOne_state_of_new ref now acc s (by simpa using he)]
    exact weekExists_storeWeekSchedule w ref now s acc.state h

theorem processOne_week_self (ref : RefDate) (now : Int) (acc : ProcessOutcome)
    (s : WeekSchedule) :
    weekScheduleExists s.week (processOne ref now acc s).state = true := by
  by_cases he : weekScheduleExists s.week acc.state = true
  · rw [processOne_of_exists ref now acc s he]
    exact he
  · rw [processOne_state_of_new ref now acc s (by simpa using he)]
    exact storeWeekSchedule_records ref now s acc.state

theorem processFold_week_mono (ref : RefDate) (now : Int)
    (l : List WeekSchedule) (acc : ProcessOutcome) (w : String)
    (h : weekScheduleExists w acc.state = true) :
    weekScheduleExists w (l.foldl (processOne ref now) acc).state = true := by
  induction l generalizing acc with
  | nil => exact h
  | cons s tl ih =>
      rw [List.foldl_cons]
      exact ih _ (processOne_week_mono ref now acc s w h)

theorem processFold_records (ref : RefDate) (now : Int)
    (l : List WeekSchedule) (acc : ProcessOutcome) :
    ∀ s ∈ l, weekScheduleExists s.week (l.foldl (processOne ref now) acc).state = true := by
  induction l generalizing acc with
  | nil => intro s hs; cases hs
  | cons s0 tl ih =>
      intro s hs
      rw [List.foldl_cons]
      rcases List.mem_cons.mp hs with rfl | hmem
      · exact processFold_week_mono ref now tl _ s.week
          (processOne_week_self ref now acc s)
      · exact ih _ s hmem

theorem processFold_noop (ref : RefDate) (now : Int) (l : List WeekSchedule)
    (acc : ProcessOutcome)
    (h : ∀ s ∈ l, weekScheduleExists s.week acc.state = true) :
    (l.foldl (processOne ref now) acc).state = acc.state
    ∧ (l.foldl (processOne ref now) acc).stored = acc.stored := by
  induction l generalizing acc with
  | nil => exact ⟨rfl, rfl⟩
  | cons s0 tl ih =>
      rw [List.foldl_cons,
        processOne_of_exists ref now acc s0 (h s0 (List.mem_cons_self _ _))]
      exact ih _ (fun s hs => h s (List.mem_cons_of_mem _ hs))

/-! ### Claim theorems -/

/-- C1: for every store state (dates list and last-update marker) and every
instant, `shouldSkipScraping` returns `skip = true` exactly when the
computed `daysAhead` is at least 14 and the computed `daysSinceUpdate` is
strictly below 5; at `daysAhead = 13, daysSinceUpdate = 1` it does not skip,
at `daysAhead = 14, daysSinceUpdate = 4` it skips, at
`daysAhead = 14, daysSinceUpdate = 5` it does not skip, and with no prior
update recorded `daysSinceUpdate` is the sentinel 999. -/
theorem shouldSkipScraping_threshold :
    (∀ (dates : List Int) (lastUpdate : Option Int) (todayMs nowMs : Int),
      (shouldSkipScrapingCore dates lastUpdate todayMs nowMs).shouldSkip = true ↔
        14 ≤ daysAheadOf todayMs dates ∧ daysSinceUpdateOf lastUpdate nowMs < 5)
    ∧ daysAheadOf 0 [13 * msPerDay] = 13
    ∧ daysSinceUpdateOf (some 1) (msPerDay + 1) = 1
    ∧ (shouldSkipScrapingCore [13 * msPerDay] (some 1) 0 (msPerDay + 1)).shouldSkip = false
    ∧ daysAheadOf 0 [14 * msPerDay] = 14
    ∧ daysSinceUpdateOf (some 1) (4 * msPerDay + 1) = 4
    ∧ (shouldSkipScrapingCore [14 * msPerDay] (some 1) 0 (4 * msPerDay + 1)).shouldSkip = true
    ∧ daysSinceUpdateOf (some 1) (5 * msPerDay + 1) = 5
    ∧ (shouldSkipScrapingCore [14 * msPerDay] (some 1) 0 (5 * msPerDay + 1)).shouldSkip = false
    ∧ (∀ nowMs : Int, daysSinceUpdateOf none nowMs = 999) := by
  refine ⟨?_, by decide, by decide, by decide, by decide, by decide, by decide,
    by decide, by decide, fun nowMs => rfl⟩
  intro dates lastUpdate todayMs nowMs
  unfold shouldSkipScrapingCore
  by_cases hd : dates = []
  · subst hd
    have h0 : daysAheadOf todayMs ([] : List Int) = 0 := by
      simp [daysAheadOf, maxStoredMs, jsCeilDiv]
    simp [h0]
  · rw [if_neg hd]
    by_cases hc : 14 ≤ daysAheadOf todayMs dates
        ∧ daysSinceUpdateOf lastUpdate nowMs < 5
    · simp [hc]
    · simp [hc]

/-- C2: the date normalizer assigns the reference year, except that a
December partial month seen from a January reference gets the previous year
and a January partial month seen from a December reference gets the next
year; reference 2025-01 with partial 30.12 yields 2024-12-30 and reference
2024-12 with partial 02.01 yields 2025-01-02. -/
theorem convertToISODate_year :
    (∀ (p : PartialDate) (ref : RefDate),
      (¬(ref.month = 1 ∧ p.month = 12) → ¬(ref.month = 12 ∧ p.month = 1) →
        (convertToISODate p ref).year = ref.year)
      ∧ (ref.month = 1 → p.month = 12 → (convertToISODate p ref).year = ref.year - 1)
      ∧ (ref.month = 12 → p.month = 1 → (convertToISODate p ref).year = ref.year + 1))
    ∧ convertToISODate ⟨30, 12⟩ ⟨2025, 1⟩ = ⟨2024, 12, 30⟩
    ∧ convertToISODate ⟨2, 1⟩ ⟨2024, 12⟩ = ⟨2025, 1, 2⟩ := by
  refine ⟨?_, by decide, by decide⟩
  intro p ref
  refine ⟨?_, ?_, ?_⟩
  · intro h1 h2
    simp [convertToISODate, h1, h2]
  · intro h1 h2
    simp [convertToISODate, h1, h2]
  · intro h1 h2
    simp [convertToISODate, h1, h2]

/-- C2 witness: a mid-year reference keeps the reference year. -/
theorem convertToISODate_year_witness :
    (convertToISODate ⟨5, 3⟩ ⟨2025, 6⟩).year = 2025 :=
  ((convertToISODate_year.1 ⟨5, 3⟩ ⟨2025, 6⟩).1) (by decide) (by decide)

/-- C3 counterexample: on the impossible partial date 31.04 the normalizer
does not reject — it succeeds and produces the non-calendar key 2025-04-31
(the source computes the key string with no validity check and no
`InvalidDateError` exists anywhere in the code). -/
theorem convertToISODate_no_validation_cex :
    convertToISODateOutcome ⟨31, 4⟩ ⟨2025, 6⟩ = Except.ok ⟨2025, 4, 31⟩
    ∧ isRealDate 2025 4 31 = false
    ∧ daysInMonth 2025 4 = 30 := by
  refine ⟨rfl, by decide, by decide⟩

/-- C3 amended: the normalizer never rejects any day/month combination; it
returns the key with the partial month and day passed through unchanged,
whether or not they denote a real calendar date. -/
theorem convertToISODate_never_rejects :
    ∀ (p : PartialDate) (ref : RefDate),
      convertToISODateOutcome p ref = Except.ok (convertToISODate p ref)
      ∧ (convertToISODate p ref).month = p.month
      ∧ (convertToISODate p ref).day = p.day := by
  intro p ref
  exact ⟨rfl, rfl, rfl⟩

/-- C4: a second ingestion run over the same documents (after a first
non-skipped run) processes zero schedules — every week identifier is found
by `weekScheduleExists` — and leaves the stored content exactly as the
first run left it. -/
theorem ingestion_idempotent (posts : List Post) (ref : RefDate)
    (now1 now2 : Int) (st : KVState) (skip1 skip2 : SkipResult)
    (h1 : skip1.shouldSkip = false) (h2 : skip2.shouldSkip = false) :
    (scrapePOST skip2 posts ref now2
        (scrapePOST skip1 posts ref now1 st).state).result.schedulesProcessed = 0
    ∧ (scrapePOST skip2 posts ref now2
        (scrapePOST skip1 posts ref now1 st).state).state
      = (scrapePOST skip1 posts ref now1 st).state := by
  by_cases hp : posts.isEmpty
  · constructor <;> simp [scrapePOST, h1, h2, hp]
  · have hstep : ∀ (sk : SkipResult), sk.shouldSkip = false → ∀ (now : Int)
        (s0 : KVState), scrapePOST sk posts ref now s0 =
          ⟨200,
            ⟨(processSchedules ref now (parseAllSchedules posts) s0).errors.isEmpty,
              (processSchedules ref now (parseAllSchedules posts) s0).stored.length,
              (processSchedules ref now (parseAllSchedules posts) s0).errors,
              posts.map Post.url⟩,
            (processSchedules ref now (parseAllSchedules posts) s0).state⟩ := by
      intro sk hsk now s0
      simp [scrapePOST, hsk, hp]
    rw [hstep skip1 h1 now1 st, hstep skip2 h2 now2 _]
    have hrec := processFold_records ref now1 (parseAllSchedules posts)
      ⟨st, [], [], [], 0⟩
    have hno := processFold_noop ref now2 (parseAllSchedules posts)
      ⟨(processSchedules ref now1 (parseAllSchedules posts) st).state, [], [], [], 0⟩
      (fun s hs => hrec s hs)
    refine ⟨?_, ?_⟩
    · show (processSchedules ref now2 (parseAllSchedules posts)
        (processSchedules ref now1 (parseAllSchedules posts) st).state).stored.length = 0
      rw [show processSchedules ref now2 (parseAllSchedules posts)
          (processSchedules ref now1 (parseAllSchedules posts) st).state
        = (parseAllSchedules posts).foldl (processOne ref now2)
          ⟨(processSchedules ref now1 (parseAllSchedules posts) st).state,
            [], [], [], 0⟩ from rfl, hno.2]
      rfl
    · show (processSchedules ref now2 (parseAllSchedules posts)
        (processSchedules ref now1 (parseAllSchedules posts) st).state).state
        = (processSchedules ref now1 (parseAllSchedules posts) st).state
      rw [show processSchedules ref now2 (parseAllSchedules posts)
          (processSchedules ref now1 (parseAllSchedules posts) st).state
        = (parseAllSchedules posts).foldl (processOne ref now2)
          ⟨(processSchedules ref now1 (parseAllSchedules posts) st).state,
            [], [], [], 0⟩ from rfl, hno.1]

/-- A concrete one-week submission for witnesses. -/
def weekIdem : WeekSchedule :=
  ⟨"20/10/2024-26/10/2024", "https://blog/posts/1", "2024-10-21T06:00:00Z",
    [⟨⟨20, 10⟩, "Poniedzialek", [⟨"Speed", ["cal SKI"], "2 x EMOM", "21 min"⟩]⟩]⟩

/-- C4 witness: running the route twice over one concrete document from
the empty store. -/
theorem ingestion_idempotent_witness :
    (scrapePOST ⟨false, "only 7 days ahead", 7⟩
        [⟨"https://blog/posts/1", Except.ok weekIdem⟩] ⟨2024, 10⟩ 200
        (scrapePOST ⟨false, "No schedules in database", 0⟩
          [⟨"https://blog/posts/1", Except.ok weekIdem⟩] ⟨2024, 10⟩ 100
          emptyKV).state).result.schedulesProcessed = 0
    ∧ (scrapePOST ⟨false, "only 7 days ahead", 7⟩
        [⟨"https://blog/posts/1", Except.ok weekIdem⟩] ⟨2024, 10⟩ 200
        (scrapePOST ⟨false, "No schedules in database", 0⟩
          [⟨"https://blog/posts/1", Except.ok weekIdem⟩] ⟨2024, 10⟩ 100
          emptyKV).state).state
      = (scrapePOST ⟨false, "No schedules in database", 0⟩
          [⟨"https://blog/posts/1", Except.ok weekIdem⟩] ⟨2024, 10⟩ 100
          emptyKV).state :=
  ingestion_idempotent [⟨"https://blog/posts/1", Except.ok weekIdem⟩]
    ⟨2024, 10⟩ 100 200 emptyKV ⟨false, "No schedules in database", 0⟩
    ⟨false, "only 7 days ahead", 7⟩ rfl rfl

/-- A concrete valid one-week submission. -/
def weekValid : WeekSchedule :=
  ⟨"27/10/2024-02/11/2024", "https://blog/posts/2", "2024-10-28T06:00:00Z",
    [⟨⟨27, 10⟩, "Niedziela", [⟨"Athletic", ["squat"], "4 rundy", "24 min"⟩]⟩]⟩

/-- A pair of candidate documents: one parses, one fails. -/
def postsMixed : List Post :=
  [⟨"https://blog/posts/2", Except.ok weekValid⟩,
    ⟨"https://blog/posts/3", Except.error "LLM failed to generate valid object"⟩]

/-- C5 counterexample: with one valid and one failing document the run
reports `schedulesProcessed = 1` but the `errors` list of the report is
empty — the parse failure message is accumulated (and dropped) inside
`parseAllSchedules` and never reaches the report. -/
theorem parse_error_dropped_cex :
    (scrapePOST ⟨false, "No schedules in database", 0⟩ postsMixed
      ⟨2024, 10⟩ 100 emptyKV).result.schedulesProcessed = 1
    ∧ (scrapePOST ⟨false, "No schedules in database", 0⟩ postsMixed
      ⟨2024, 10⟩ 100 emptyKV).result.errors = []
    ∧ parseAllSchedulesErrors postsMixed
      = ["Failed to parse https://blog/posts/3: LLM failed to generate valid object"] :=
  ⟨rfl, rfl, rfl⟩

/-- C5 amended: a failing document is skipped without aborting the run,
the report has `processedCount = 1` and the valid document's days are
persisted — but the parse error message does not appear in the report's
errors list, which stays empty (the run even reports `success = true`). -/
theorem partial_batch_resilience (w : WeekSchedule) (u1 u2 e : String)
    (ref : RefDate) (now : Int) (st : KVState) (skip : SkipResult)
    (hskip : skip.shouldSkip = false)
    (hnew : weekScheduleExists w.week st = false)
    (hdays : w.days ≠ []) :
    (scrapePOST skip [⟨u1, Except.ok w⟩, ⟨u2, Except.error e⟩] ref now
      st).result.schedulesProcessed = 1
    ∧ (scrapePOST skip [⟨u1, Except.ok w⟩, ⟨u2, Except.error e⟩] ref now
      st).result.errors = []
    ∧ (scrapePOST skip [⟨u1, Except.ok w⟩, ⟨u2, Except.error e⟩] ref now
      st).result.success = true
    ∧ ∀ d ∈ w.days,
        (getDayScheduleByISO (convertToISODate d.date ref).key
          (scrapePOST skip [⟨u1, Except.ok w⟩, ⟨u2, Except.error e⟩] ref now
            st).state).isSome = true := by
  have hsched : parseAllSchedules [⟨u1, Except.ok w⟩, ⟨u2, Except.error e⟩]
      = [w] := rfl
  have hproc : processSchedules ref now [w] st
      = ⟨(storeWeekSchedule ref now w st).1, [w.week], [], [], w.days.length⟩ := by
    show processOne ref now ⟨st, [], [], [], 0⟩ w = _
    unfold processOne
    rw [if_neg (by simp [hnew])]
    have hlen : 0 < (storeWeekSchedule ref now w st).2 := by
      rw [storeWeekSchedule_snd]
      exact List.length_pos.mpr hdays
    simp [hlen, storeWeekSchedule_snd, hdays]
  have hpost : scrapePOST skip [⟨u1, Except.ok w⟩, ⟨u2, Except.error e⟩] ref now st
      = ⟨200, ⟨true, 1, [], [u1, u2]⟩, (storeWeekSchedule ref now w st).1⟩ := by
    simp [scrapePOST, hskip, hsched, hproc]
  rw [hpost]
  refine ⟨rfl, rfl, rfl, ?_⟩
  intro d hd
  show (kvGet (convertToISODate d.date ref).key
    ((storeWeekSchedule ref now w st).1).dayStore).isSome = true
  rw [show ((storeWeekSchedule ref now w st).1).dayStore
      = (storeDays ref w now w.days st).dayStore from by rw [storeWeekSchedule_fst]]
  exact storeDays_present ref w now w.days st d hd

/-- C5 witness: the amended statement at the concrete mixed document pair. -/
theorem partial_batch_resilience_witness :
    (scrapePOST ⟨false, "No schedules in database", 0⟩ postsMixed
      ⟨2024, 10⟩ 100 emptyKV).result.schedulesProcessed = 1
    ∧ (scrapePOST ⟨false, "No schedules in database", 0⟩ postsMixed
      ⟨2024, 10⟩ 100 emptyKV).result.errors = []
    ∧ (scrapePOST ⟨false, "No schedules in database", 0⟩ postsMixed
      ⟨2024, 10⟩ 100 emptyKV).result.success = true
    ∧ ∀ d ∈ weekValid.days,
        (getDayScheduleByISO (convertToISODate d.date ⟨2024, 10⟩).key
          (scrapePOST ⟨false, "No schedules in database", 0⟩ postsMixed
            ⟨2024, 10⟩ 100 emptyKV).state).isSome = true :=
  partial_batch_resilience weekValid "https://blog/posts/2"
    "https://blog/posts/3" "LLM failed to generate valid object" ⟨2024, 10⟩ 100
    emptyKV ⟨false, "No schedules in database", 0⟩ rfl rfl (by decide)

/-- A first submission covering 20.10. -/
def weekFirst : WeekSchedule :=
  ⟨"20/10/2024-26/10/2024", "https://blog/posts/4", "2024-10-21T06:00:00Z",
    [⟨⟨20, 10⟩, "Niedziela", [⟨"Speed", ["row"], "EMOM", "21 min"⟩]⟩]⟩

/-- A second submission with a different week identifier also covering
20.10. -/
def weekSecond : WeekSchedule :=
  ⟨"19/10/2024-25/10/2024", "https://blog/posts/5", "2024-10-22T06:00:00Z",
    [⟨⟨20, 10⟩, "Niedziela", [⟨"Athletic", ["burpee"], "TABATA", "24 min"⟩]⟩]⟩

/-- C6 counterexample: after `weekFirst` stores key 2024-10-20, ingesting
`weekSecond` — a different week identifier containing a day that
normalizes to the same key — replaces the stored record (the source URL at
the key flips from the first post to the second): the first write does not
win. -/
theorem day_overwrite_cex :
    ((getDayScheduleByISO 20241020
        (processSchedules ⟨2024, 10⟩ 100 [weekFirst] emptyKV).state).map
      (fun r => r.sourceUrl)) = some "https://blog/posts/4"
    ∧ ((getDayScheduleByISO 20241020
        (processSchedules ⟨2024, 10⟩ 200 [weekSecond]
          (processSchedules ⟨2024, 10⟩ 100 [weekFirst] emptyKV).state).state).map
      (fun r => r.sourceUrl)) = some "https://blog/posts/5"
    ∧ weekFirst.week ≠ weekSecond.week :=
  ⟨rfl, rfl, by decide⟩

/-- C6 amended: per-day storage is last-write-wins — any submission whose
week identifier is not yet recorded overwrites the record at every date
key its days normalize to (`redis.set` is unconditional); only the
week-identifier dedup check prevents rewriting. -/
theorem day_last_write_wins (w : WeekSchedule) (ref : RefDate) (now : Int)
    (st : KVState) (hnew : weekScheduleExists w.week st = false)
    (hnd : (w.days.map (fun d => (convertToISODate d.date ref).key)).Nodup) :
    ∀ d ∈ w.days,
      getDayScheduleByISO (convertToISODate d.date ref).key
        (processSchedules ref now [w] st).state = some (mkStoredDay ref w d) := by
  intro d hd
  have hstate : (processSchedules ref now [w] st).state
      = (storeWeekSchedule ref now w st).1 := by
    show (processOne ref now ⟨st, [], [], [], 0⟩ w).state = _
    exact processOne_state_of_new ref now ⟨st, [], [], [], 0⟩ w hnew
  rw [hstate]
  show kvGet (convertToISODate d.date ref).key
    ((storeWeekSchedule ref now w st).1).dayStore = some (mkStoredDay ref w d)
  rw [show ((storeWeekSchedule ref now w st).1).dayStore
      = (storeDays ref w now w.days st).dayStore from by rw [storeWeekSchedule_fst]]
  exact storeDays_get_nodup ref w now w.days st hnd d hd

/-- C6 witness: the overwrite theorem applied to `weekFirst` over the
empty store. -/
theorem day_last_write_wins_witness :
    getDayScheduleByISO (convertToISODate ⟨20, 10⟩ ⟨2024, 10⟩).key
        (processSchedules ⟨2024, 10⟩ 100 [weekFirst] emptyKV).state
      = some (mkStoredDay ⟨2024, 10⟩ weekFirst
          ⟨⟨20, 10⟩, "Niedziela", [⟨"Speed", ["row"], "EMOM", "21 min"⟩]⟩) :=
  day_last_write_wins weekFirst ⟨2024, 10⟩ 100 emptyKV rfl (by decide)
    ⟨⟨20, 10⟩, "Niedziela", [⟨"Speed", ["row"], "EMOM", "21 min"⟩]⟩ (by decide)

/-- C7 counterexample: with no documents found, the route returns (HTTP
200) a report whose `success` flag is `false` and whose note sits in the
`errors` list — not a successful report. -/
theorem zero_documents_cex :
    (scrapePOST ⟨false, "No schedules in database", 0⟩ [] ⟨2024, 10⟩ 100
      emptyKV).result.success = false
    ∧ (scrapePOST ⟨false, "No schedules in database", 0⟩ [] ⟨2024, 10⟩ 100
      emptyKV).result = ⟨false, 0, ["No blog posts found"], []⟩
    ∧ (scrapePOST ⟨false, "No schedules in database", 0⟩ [] ⟨2024, 10⟩ 100
      emptyKV).status = 200 :=
  ⟨rfl, rfl, rfl⟩

/-- C7 amended: a zero-document run is reported at HTTP 200 with
`processedCount = 0`, the store untouched, and the descriptive note
"No blog posts found" — but in the `errors` list of a report whose
`success` flag is `false`. -/
theorem zero_documents_report (skip : SkipResult) (ref : RefDate) (now : Int)
    (st : KVState) (h : skip.shouldSkip = false) :
    scrapePOST skip [] ref now st
      = ⟨200, ⟨false, 0, ["No blog posts found"], []⟩, st⟩ := by
  simp [scrapePOST, h]

/-- C7 witness: the zero-document report at a concrete non-skipping
evaluation over the empty store. -/
theorem zero_documents_report_witness :
    scrapePOST ⟨false, "No schedules in database", 0⟩ [] ⟨2024, 10⟩ 100 emptyKV
      = ⟨200, ⟨false, 0, ["No blog posts found"], []⟩, emptyKV⟩ :=
  zero_documents_report ⟨false, "No schedules in database", 0⟩ ⟨2024, 10⟩ 100
    emptyKV rfl

/-- C8: when the storage read fails, `shouldSkipScraping` lands in its
catch branch and returns the do-not-skip default, for every error and
every instant: a storage failure never causes acquisition to be skipped. -/
theorem shouldSkipScraping_storage_failure (e : String) (todayMs nowMs : Int) :
    (shouldSkipScraping (Except.error e) todayMs nowMs).shouldSkip = false
    ∧ shouldSkipScraping (Except.error e) todayMs nowMs
        = ⟨false, "Error checking schedules", 0⟩ :=
  ⟨rfl, rfl⟩

/-- A submission with later calendar dates, ingested first. -/
def weekLater : WeekSchedule :=
  ⟨"27/10/2024-02/11/2024", "https://blog/posts/6", "2024-10-28T06:00:00Z",
    [⟨⟨27, 10⟩, "Niedziela", [⟨"FBB", ["dip"], "WORK", "30 min"⟩]⟩]⟩

/-- A submission with earlier calendar dates, ingested second. -/
def weekEarlier : WeekSchedule :=
  ⟨"20/10/2024-26/10/2024", "https://blog/posts/7", "2024-10-21T06:00:00Z",
    [⟨⟨20, 10⟩, "Poniedzialek", [⟨"Speed", ["run"], "EMOM", "21 min"⟩]⟩]⟩

/-- C9 counterexample: ingesting the later-dated week at timestamp 100 and
the earlier-dated week at timestamp 200 makes `getAllDaySchedules` return
the 2024-10-20 record before the 2024-10-27 record — the record with the
later canonical date does not precede, because the sorted-set score is the
ingestion timestamp, not the date. -/
theorem getAll_ingestion_order_cex :
    ((getAllDaySchedules
        (storeWeekSchedule ⟨2024, 10⟩ 200 weekEarlier
          (storeWeekSchedule ⟨2024, 10⟩ 100 weekLater emptyKV).1).1).map
      (fun r => r.isoDate.key)) = [20241020, 20241027]
    ∧ (20241020 : Nat) < 20241027 :=
  ⟨rfl, by decide⟩

/-- C9 amended: `getAllDaySchedules` lists the stored days ordered by
storage timestamp (the sorted-set score written at store time) descending,
breaking ties by date key descending; this equals newest-first by canonical
date only when submissions arrive in chronological order of their
content. -/
theorem getAllDaySchedules_order (st : KVState) :
    List.Sorted zrevOrder (zrangeRev st.daysList)
    ∧ List.Pairwise (fun a b : Int => b ≤ a)
        ((zrangeRev st.daysList).map Prod.snd) := by
  have hs : List.Sorted zrevOrder (zrangeRev st.daysList) :=
    List.sorted_insertionSort zrevOrder st.daysList
  refine ⟨hs, ?_⟩
  refine List.Pairwise.map Prod.snd ?_ hs
  intro a b hab
  rcases hab with h | ⟨h, _⟩
  · exact le_of_lt h
  · exact le_of_eq h.symm

/-- C10: `getTodaySchedule` keys its lookup on the UTC calendar date of
the current instant (`toISOString`); at any instant whose local calendar
date differs from its UTC date and where the two keys hold different
records, the result is the record under the UTC date, not the local one. -/
theorem getTodaySchedule_uses_utc (st : KVState) (nowMs offsetMin : Int)
    (hkeys : jsLocalDateKey nowMs offsetMin ≠ jsUTCDateKey nowMs)
    (hdiff : getDayScheduleByISO (jsUTCDateKey nowMs) st
      ≠ getDayScheduleByISO (jsLocalDateKey nowMs offsetMin) st) :
    getTodaySchedule nowMs st = getDayScheduleByISO (jsUTCDateKey nowMs) st
    ∧ getTodaySchedule nowMs st
        ≠ getDayScheduleByISO (jsLocalDateKey nowMs offsetMin) st :=
  ⟨rfl, hdiff⟩

/-- The record stored under 1970-01-01. -/
def utcDayRec : StoredDay :=
  ⟨⟨1, 1⟩, "Czwartek", [], ⟨1970, 1, 1⟩, "https://blog/posts/8", "t1"⟩

/-- The record stored under 1970-01-02. -/
def localDayRec : StoredDay :=
  ⟨⟨2, 1⟩, "Piatek", [], ⟨1970, 1, 2⟩, "https://blog/posts/8", "t1"⟩

/-- A store holding distinct records on the two sides of a UTC midnight. -/
def tzKV : KVState :=
  ⟨[(19700101, utcDayRec), (19700102, localDayRec)], [], [], none⟩

/-- C10 witness: at 23:30 UTC in a zone one hour east of UTC (local date
already 1970-01-02), the lookup returns the record of the UTC date
1970-01-01. -/
theorem getTodaySchedule_uses_utc_witness :
    getTodaySchedule 84600000 tzKV
      = getDayScheduleByISO (jsUTCDateKey 84600000) tzKV
    ∧ getTodaySchedule 84600000 tzKV
      ≠ getDayScheduleByISO (jsLocalDateKey 84600000 60) tzKV :=
  getTodaySchedule_uses_utc tzKV 84600000 60 (by decide) (by decide)

end Hardyplan
